import Mathlib

/-!
Verification of the commit-change-detection poll loop of
`discord-diversion-bot` (`bot.js`), as a shallow embedding.

The embedding models:
* JavaScript identifier values (`null` / `undefined` / strings) with strict
  equality, since `lastCommitId` starts as `null` and is compared with `!==`;
* one poll tick (`checkForNewCommits`) as a function of the tick's I/O
  environment (fetch outcome, channel lookup outcome) and the stored
  last-seen identifier, returning the new stored identifier together with the
  list of `channel.send` invocations (commit identifier and message text);
* a run of consecutive ticks (`runPoll`);
* startup environment validation (`requiredEnvVars` loop with `process.exit(1)`);
* the `/status` slash-command path (`getLatestCommit` plus the
  `InteractionCreate` handler), with the handler's externally visible actions
  (`deferReply`, `editReply`, `reply`) recorded as a trace.
-/

namespace DivBot

/-- A JavaScript value used as a commit identifier: `null`, `undefined`, or a
string.  `lastCommitId` is initialized to `null` (bot.js line 77) and compared
with strict (in)equality `!==` (line 110). -/
inductive Jid where
  | null : Jid
  | undef : Jid
  | str : String → Jid
  deriving DecidableEq, Repr

/-- One commit record as consumed by bot.js.  Optional fields are `none` when
the upstream JSON lacks them (JavaScript `undefined`).  The formatter reads
`author_name`/`author`, `commit_message`/`message`, `branch`, `workspace`
(bot.js lines 116-120). -/
structure Commit where
  id : Jid
  author_name : Option String := none
  author : Option String := none
  commit_message : Option String := none
  message : Option String := none
  branch : Option String := none
  workspace : Option String := none
  deriving DecidableEq, Repr

/-- JavaScript truthiness of a possibly-absent string: `undefined` and the
empty string are falsy. -/
def jsTruthy : Option String → Bool
  | none => false
  | some s => s != ""

/-- JavaScript `x || y` on possibly-absent strings. -/
def jsOrV (x y : Option String) : Option String :=
  if jsTruthy x then x else y

/-- Template-literal interpolation: `undefined` renders as the text
"undefined". -/
def jsInterp : Option String → String
  | none => "undefined"
  | some s => s

/-- The message built in `checkForNewCommits` (bot.js lines 116-120):
author falls back from `author_name` to `author`, the message text from
`commit_message` to `message`, branch defaults to "main" and workspace to
"N/A" via JavaScript `||`. -/
def formatCommit (c : Commit) : String :=
  "🆕 New commit in Diversion:\nAuthor: **" ++ jsInterp (jsOrV c.author_name c.author)
    ++ "**\nMessage: " ++ jsInterp (jsOrV c.commit_message c.message)
    ++ "\nBranch: " ++ jsInterp (jsOrV c.branch (some "main"))
    ++ "\nWorkspace: " ++ jsInterp (jsOrV c.workspace (some "N/A"))

/-- The element a string-valued `commits` field contributes: indexing a
JavaScript string yields a one-character string, which has none of the commit
record's properties, so every field access on it — `id`, `author_name`,
`author`, `commit_message`, `message`, `branch`, `workspace` — evaluates to
`undefined`. -/
def strElemCommit : Commit := { id := Jid.undef }

/-- Shape of the parsed JSON body `data` (bot.js line 105):
a bare array; an object whose `commits` field is an array; an object whose
`commits` field is a string (a truthy non-array value that nevertheless has a
`length` and indexing, so `commits.length > 0` holds for a non-empty string
and `commits[0]` is its first character); an object or primitive whose
`commits` field is absent, falsy, or a truthy value without usable length or
elements (`data.commits || []` yields `[]`, or `commits.length > 0` is false,
or `commits[0]` is `undefined` so the later `latest.id` access raises and is
caught — observationally a no-op in every consumer); or JSON `null` (on which
the property access `data.commits` itself raises a `TypeError`, caught by the
tick's top-level `catch`). -/
inductive ApiData where
  | nullData : ApiData
  | arr : List Commit → ApiData
  | objCommits : List Commit → ApiData
  | objCommitsStr : String → ApiData
  | other : ApiData
  deriving DecidableEq, Repr

/-- `const commits = Array.isArray(data) ? data : data.commits || []`
(bot.js line 105).  A string-valued `commits` field survives the `||` when
non-empty and is then consumed through `length` and `[0]`, i.e. as the list
of its characters (each behaving as `strElemCommit`); the empty string is
falsy and yields `[]`.  For `nullData` the source raises instead;
`pollOnce` and `getLatestCommit` model that case separately, so the `[]`
returned here for `nullData` is never consulted by them. -/
def extractCommits : ApiData → List Commit
  | ApiData.nullData => []
  | ApiData.arr cs => cs
  | ApiData.objCommits cs => cs
  | ApiData.objCommitsStr s => s.data.map (fun _ => strElemCommit)
  | ApiData.other => []

/-- Outcome of the tick's `fetch` + `res.json()` (bot.js lines 88-101):
a thrown error (network failure or body that is not JSON), a non-success
HTTP status (`!res.ok`), or a parsed JSON value. -/
inductive FetchRes where
  | exn : FetchRes
  | httpError : Nat → FetchRes
  | ok : ApiData → FetchRes
  deriving DecidableEq, Repr

/-- Outcome of `client.channels.fetch(CHANNEL_ID)` followed by
`channel.send` (bot.js lines 113-122): the lookup resolves to a falsy value,
the lookup itself throws, or it yields a channel whose `send` either resolves
(`ok true`) or throws (`ok false`).  In the `ok` cases `channel.send` is
invoked exactly once. -/
inductive ChanResult where
  | missing : ChanResult
  | throws : ChanResult
  | ok : Bool → ChanResult
  deriving DecidableEq, Repr

/-- The I/O environment of one poll tick. -/
structure TickEnv where
  fetchResult : FetchRes
  chanRes : ChanResult
  deriving DecidableEq, Repr

/-- Lines 106-124 of bot.js, after the commits list has been resolved:
if the list is non-empty and the head's `id` differs (strictly) from the
stored identifier, the stored identifier is assigned first, then the channel
is fetched and `channel.send` called with the formatted message.  The second
component lists the `channel.send` invocations of this tick as
(commit identifier, message text) pairs. -/
def pollStep (ch : ChanResult) (commits : List Commit) (st : Jid) :
    Jid × List (Jid × String) :=
  match commits with
  | [] => (st, [])
  | latest :: _ =>
    if latest.id = st then (st, [])
    else
      match ch with
      | ChanResult.missing => (latest.id, [])
      | ChanResult.throws => (latest.id, [])
      | ChanResult.ok _ => (latest.id, [(latest.id, formatCommit latest)])

/-- One invocation of `checkForNewCommits` (bot.js lines 85-134).  Every
thrown error is caught by the function's top-level `try`/`catch`, so every
environment yields a result; a non-success HTTP status returns early. -/
def pollOnce (env : TickEnv) (st : Jid) : Jid × List (Jid × String) :=
  match env.fetchResult with
  | FetchRes.exn => (st, [])
  | FetchRes.httpError _ => (st, [])
  | FetchRes.ok ApiData.nullData => (st, [])
  | FetchRes.ok d => pollStep env.chanRes (extractCommits d) st

/-- A run of consecutive poll ticks within one process lifetime, threading
the stored identifier and concatenating the `channel.send` invocations. -/
def runPoll : Jid → List TickEnv → Jid × List (Jid × String)
  | st, [] => (st, [])
  | st, e :: es =>
    let r := pollOnce e st
    let rest := runPoll r.1 es
    (rest.1, r.2 ++ rest.2)

/-- The commits list a tick observes (meaningful when its fetch succeeded). -/
def commitsOf (e : TickEnv) : List Commit :=
  match e.fetchResult with
  | FetchRes.ok d => extractCommits d
  | _ => []

/-! ## Startup configuration validation (bot.js lines 31-59) -/

/-- The environment variables bot.js reads.  `DIVERSION_BASE_URL` and
`DIVERSION_WORKSPACE` get defaults via `||` (lines 31, 33); the others are
read directly. -/
structure ProcEnv where
  DISCORD_TOKEN : Option String := none
  CHANNEL_ID : Option String := none
  DIVERSION_BEARER_TOKEN : Option String := none
  DIVERSION_REPO_NAME : Option String := none
  DIVERSION_ORG : Option String := none
  CLIENT_ID : Option String := none
  GUILD_ID : Option String := none
  DIVERSION_BASE_URL : Option String := none
  DIVERSION_WORKSPACE : Option String := none
  deriving DecidableEq, Repr

/-- `process.env[name]` for the names bot.js uses. -/
def lookupEnv (e : ProcEnv) : String → Option String
  | "DISCORD_TOKEN" => e.DISCORD_TOKEN
  | "CHANNEL_ID" => e.CHANNEL_ID
  | "DIVERSION_BEARER_TOKEN" => e.DIVERSION_BEARER_TOKEN
  | "DIVERSION_REPO_NAME" => e.DIVERSION_REPO_NAME
  | "DIVERSION_ORG" => e.DIVERSION_ORG
  | "CLIENT_ID" => e.CLIENT_ID
  | "GUILD_ID" => e.GUILD_ID
  | "DIVERSION_BASE_URL" => e.DIVERSION_BASE_URL
  | "DIVERSION_WORKSPACE" => e.DIVERSION_WORKSPACE
  | _ => none

/-- The `requiredEnvVars` list of bot.js lines 44-52. -/
def requiredEnvVars : List String :=
  ["DISCORD_TOKEN", "CHANNEL_ID", "DIVERSION_BEARER_TOKEN", "DIVERSION_REPO_NAME",
   "DIVERSION_ORG", "CLIENT_ID", "GUILD_ID"]

/-- The startup loop of bot.js lines 54-59: `process.exit(1)` as soon as a
required variable is falsy, otherwise startup proceeds (`none`). -/
def startupExitCode (e : ProcEnv) : Option Nat :=
  if requiredEnvVars.any (fun v => !(jsTruthy (lookupEnv e v))) then some 1 else none

/-- `DIVERSION_BASE_URL || 'https://api.diversion.dev'` (bot.js line 31). -/
def effectiveBaseUrl (e : ProcEnv) : String :=
  jsInterp (jsOrV e.DIVERSION_BASE_URL (some "https://api.diversion.dev"))

/-! ## The on-demand `/status` query (bot.js lines 207-275 and 344-395) -/

/-- One character of the quote class of the regex `/^["']|["']$/`. -/
def isQuote (c : Char) : Bool :=
  c = Char.ofNat 34 || c = Char.ofNat 39

/-- `token.replace(/^["']|["']$/g, '')`: removes at most one leading and one
trailing quote character. -/
def stripQuotes (s : String) : String :=
  let l := s.data
  let l1 := match l with
    | c :: t => if isQuote c then t else l
    | [] => []
  let l2 := match l1.reverse with
    | c :: t => if isQuote c then t.reverse else l1
    | [] => []
  String.mk l2

/-- A whitespace character as matched by the regex class `\s`. -/
def isSpaceChar (c : Char) : Bool :=
  c = ' ' || c = '\t' || c = '\n' || c = '\r'

/-- `token.replace(/^Bearer\s+/i, '')`: case-insensitively removes a leading
"Bearer" together with the following run of whitespace, when present. -/
def stripBearer (s : String) : String :=
  match s.data with
  | b :: e :: a :: r1 :: e2 :: r2 :: rest =>
    if ([b, e, a, r1, e2, r2].map Char.toLower) = "bearer".data then
      match rest with
      | c :: _ => if isSpaceChar c then String.mk (rest.dropWhile isSpaceChar) else s
      | [] => s
    else s
  | _ => s

/-- `cleanBearerToken` (bot.js lines 208-215): `null` for a falsy input,
otherwise trim, strip surrounding quotes, strip a `Bearer ` marker. -/
def cleanBearerToken (token : Option String) : Option String :=
  match token with
  | none => none
  | some s => if s = "" then none else some (stripBearer (stripQuotes s.trim))

/-- Outcome of the `/status` fetch as seen by `getLatestCommit`
(bot.js lines 242-259): a thrown network error, or a response carrying the
`ok` flag, the status code, the raw body text, and the result of
`JSON.parse` on that text (`none` when parsing throws). -/
inductive StatusFetch where
  | exn : StatusFetch
  | resp : Bool → Nat → String → Option ApiData → StatusFetch
  deriving Repr

/-- `getLatestCommit` (bot.js lines 217-275).  Every failure is rethrown to
the caller (`Except.error`); success yields the head commit or `none` when
the resolved list is empty. -/
def getLatestCommit (token : Option String) (f : StatusFetch) :
    Except String (Option Commit) :=
  match cleanBearerToken token with
  | none => Except.error "Bearer token is missing or invalid"
  | some t =>
    if t = "" then Except.error "Bearer token is missing or invalid"
    else
      match f with
      | StatusFetch.exn => Except.error "fetch failed"
      | StatusFetch.resp okFlag status body parsed =>
        if okFlag = false then
          Except.error ("Diversion API Error: " ++ toString status ++ " - " ++ body)
        else
          match parsed with
          | none => Except.error ("Failed to parse response as JSON: " ++ body)
          | some ApiData.nullData => Except.error "TypeError: cannot read commits of null"
          | some d =>
            match extractCommits d with
            | [] => Except.ok none
            | c :: _ => Except.ok (some c)

/-- An externally visible action of the interaction handler: the deferred
acknowledgement (`interaction.deferReply`), a follow-up edit
(`interaction.editReply`), or a direct reply (`interaction.reply`). -/
inductive Action where
  | deferCall : Action
  | editReply : String → Action
  | reply : String → Action
  deriving DecidableEq, Repr

/-- The fixed reply of the empty-repository branch (bot.js line 379). -/
def noCommitsMsg : String := "❌ No commits found in the repository."

/-- The fixed reply of the error branch (bot.js line 388). -/
def statusErrorMsg : String := "❌ Failed to fetch repository status. Check the logs for details."

/-- The success reply built at bot.js lines 363-367.  The `Time:` line renders
`new Date(latest.timestamp || latest.date).toLocaleString()`, an
environment- and locale-dependent string supplied here as `timeText`. -/
def statusMessage (timeText : String) (c : Commit) : String :=
  "📊 Latest Commit Status:\nAuthor: **" ++ jsInterp (jsOrV c.author_name c.author)
    ++ "**\nMessage: " ++ jsInterp (jsOrV c.commit_message c.message)
    ++ "\nBranch: " ++ jsInterp (jsOrV c.branch (some "main"))
    ++ "\nTime: " ++ timeText

/-- The I/O environment of one `/status` invocation: the configured bearer
token, whether `deferReply` resolved (when it rejects, the rejection is
caught and `interaction.deferred` stays false), the fetch outcome, and the
rendered time text. -/
structure StatusEnv where
  token : Option String
  deferOk : Bool
  fetch : StatusFetch
  timeText : String

/-- The `status` branch of the `InteractionCreate` handler
(bot.js lines 344-395), threading the stored last-seen identifier: the
handler only reads shared state, so the identifier passes through unchanged.
Every fetch/parse error is caught at line 386 and turned into
`statusErrorMsg`; every delivery has a `.catch`, so no error escapes. -/
def handleStatus (env : StatusEnv) (st : Jid) : Jid × List Action :=
  let final :=
    match getLatestCommit env.token env.fetch with
    | Except.ok (some c) => statusMessage env.timeText c
    | Except.ok none => noCommitsMsg
    | Except.error _ => statusErrorMsg
  (st, [Action.deferCall,
        if env.deferOk then Action.editReply final else Action.reply final])

/-! ## Concrete fixtures used by witnesses and counterexamples -/

/-- The commit `{id:"c2", author:"A", message:"fix"}` of the spec's scenario. -/
def cFix : Commit := { id := Jid.str "c2", author := some "A", message := some "fix" }

/-- An older commit `{id:"c1"}`. -/
def cOld : Commit := { id := Jid.str "c1" }

/-- A newer commit `{id:"c3"}`. -/
def cNew : Commit := { id := Jid.str "c3", author := some "B", message := some "more" }

/-- A healthy tick observing `[cFix, cOld]`. -/
def tickA : TickEnv :=
  { fetchResult := FetchRes.ok (ApiData.arr [cFix, cOld]), chanRes := ChanResult.ok true }

/-- A healthy tick observing the grown log `[cNew, cFix, cOld]`. -/
def tickGrown : TickEnv :=
  { fetchResult := FetchRes.ok (ApiData.arr [cNew, cFix, cOld]), chanRes := ChanResult.ok true }

/-- A tick whose fetch answers HTTP 500. -/
def tick500 : TickEnv :=
  { fetchResult := FetchRes.httpError 500, chanRes := ChanResult.ok true }

/-- A tick whose body is `{ commits: [] }`. -/
def tickEmptyObj : TickEnv :=
  { fetchResult := FetchRes.ok (ApiData.objCommits []), chanRes := ChanResult.ok true }

/-- A healthy tick whose body is `{ commits: "x" }` — the `commits` field is
truthy but not an array. -/
def tickStrCommits : TickEnv :=
  { fetchResult := FetchRes.ok (ApiData.objCommitsStr "x"), chanRes := ChanResult.ok true }

/-- A tick observing `[cFix, cOld]` whose channel lookup yields no channel. -/
def tickNoChan : TickEnv :=
  { fetchResult := FetchRes.ok (ApiData.arr [cFix, cOld]), chanRes := ChanResult.missing }

/-- An environment with the seven code-required variables present but
`DIVERSION_BASE_URL` and `DIVERSION_WORKSPACE` absent. -/
def envNoBase : ProcEnv :=
  { DISCORD_TOKEN := some "t", CHANNEL_ID := some "c", DIVERSION_BEARER_TOKEN := some "b",
    DIVERSION_REPO_NAME := some "r", DIVERSION_ORG := some "o", CLIENT_ID := some "i",
    GUILD_ID := some "g" }

/-- An environment missing the bot credential. -/
def envNoTok : ProcEnv :=
  { CHANNEL_ID := some "c", DIVERSION_BEARER_TOKEN := some "b",
    DIVERSION_REPO_NAME := some "r", DIVERSION_ORG := some "o", CLIENT_ID := some "i",
    GUILD_ID := some "g", DIVERSION_BASE_URL := some "u", DIVERSION_WORKSPACE := some "w" }

/-! ## Basic unfolding lemmas for one poll tick -/

theorem pollOnce_eq_step (env : TickEnv) (st : Jid) (d : ApiData)
    (hf : env.fetchResult = FetchRes.ok d) (hd : d ≠ ApiData.nullData) :
    pollOnce env st = pollStep env.chanRes (extractCommits d) st := by
  cases d with
  | nullData => exact absurd rfl hd
  | arr cs => simp [pollOnce, hf]
  | objCommits cs => simp [pollOnce, hf]
  | objCommitsStr s => simp [pollOnce, hf]
  | other => simp [pollOnce, hf]

theorem pollStep_nil (ch : ChanResult) (st : Jid) : pollStep ch [] st = (st, []) := rfl

theorem pollStep_stale (ch : ChanResult) (st : Jid) (c : Commit) (t : List Commit)
    (h : c.id = st) : pollStep ch (c :: t) st = (st, []) := by
  simp [pollStep, h]

theorem pollStep_fresh_fst (ch : ChanResult) (st : Jid) (c : Commit) (t : List Commit)
    (h : c.id ≠ st) : (pollStep ch (c :: t) st).1 = c.id := by
  cases ch <;> simp [pollStep, h]

theorem pollStep_fresh_ok (b : Bool) (st : Jid) (c : Commit) (t : List Commit)
    (h : c.id ≠ st) :
    pollStep (ChanResult.ok b) (c :: t) st = (c.id, [(c.id, formatCommit c)]) := by
  simp [pollStep, h]

theorem pollStep_fresh_ids (ch : ChanResult) (st : Jid) (c : Commit) (t : List Commit)
    (h : c.id ≠ st) :
    (pollStep ch (c :: t) st).2.map Prod.fst = [] ∨
      (pollStep ch (c :: t) st).2.map Prod.fst = [c.id] := by
  cases ch <;> simp [pollStep, h]

theorem runPoll_cons (st : Jid) (e : TickEnv) (ts : List TickEnv) :
    runPoll st (e :: ts) =
      ((runPoll (pollOnce e st).1 ts).1,
        (pollOnce e st).2 ++ (runPoll (pollOnce e st).1 ts).2) := rfl

/-- A fresh head commit with a reachable channel: the tick ends in the updated
state and exactly one send of the formatted message. -/
theorem pollOnce_fresh_send (env : TickEnv) (st : Jid) (d : ApiData)
    (latest : Commit) (rest : List Commit) (b : Bool)
    (hf : env.fetchResult = FetchRes.ok d) (hd : d ≠ ApiData.nullData)
    (hl : extractCommits d = latest :: rest)
    (hnew : latest.id ≠ st) (hch : env.chanRes = ChanResult.ok b) :
    pollOnce env st = (latest.id, [(latest.id, formatCommit latest)]) := by
  rw [pollOnce_eq_step env st d hf hd, hl, hch]
  exact pollStep_fresh_ok b st latest rest hnew

/-- A head commit equal to the stored identifier: the tick is a no-op. -/
theorem pollOnce_stale_noop (env : TickEnv) (st : Jid) (d : ApiData)
    (latest : Commit) (rest : List Commit)
    (hf : env.fetchResult = FetchRes.ok d) (hd : d ≠ ApiData.nullData)
    (hl : extractCommits d = latest :: rest) (hst : latest.id = st) :
    pollOnce env st = (st, []) := by
  rw [pollOnce_eq_step env st d hf hd, hl]
  exact pollStep_stale env.chanRes st latest rest hst

/-- A fresh head commit updates the stored identifier whatever the channel
lookup and send do. -/
theorem pollOnce_fresh_fst (env : TickEnv) (st : Jid) (d : ApiData)
    (latest : Commit) (rest : List Commit)
    (hf : env.fetchResult = FetchRes.ok d) (hd : d ≠ ApiData.nullData)
    (hl : extractCommits d = latest :: rest) (hnew : latest.id ≠ st) :
    (pollOnce env st).1 = latest.id := by
  rw [pollOnce_eq_step env st d hf hd, hl]
  exact pollStep_fresh_fst env.chanRes st latest rest hnew

/-! ## The monotone-log invariant: at most one send per identifier -/

/-- In an append-only commit log with globally unique identifiers, two
snapshot lists (each a suffix of the full log `M`), one a suffix of the other,
whose head commits carry the same identifier, are the same snapshot. -/
theorem head_id_suffix_eq (M l₁ l₂ : List Commit) (c₁ c₂ : Commit)
    (hM : (M.map Commit.id).Nodup) (h12 : l₁ <:+ l₂) (h2M : l₂ <:+ M)
    (h₁ : l₁.head? = some c₁) (h₂ : l₂.head? = some c₂) (hid : c₁.id = c₂.id) :
    l₁ = l₂ := by
  obtain ⟨t, ht⟩ := h12
  cases t with
  | nil => simpa using ht
  | cons a t' =>
    exfalso
    have h2n : (l₂.map Commit.id).Nodup := hM.sublist ((h2M.map Commit.id).sublist)
    cases l₁ with
    | nil => simp at h₁
    | cons b l₁' =>
      have hc₁ : c₁ = b := by simpa using h₁.symm
      subst ht
      have hc₂ : c₂ = a := by simpa using h₂.symm
      have hcons : (Commit.id a :: List.map Commit.id (t' ++ b :: l₁')).Nodup := by
        simpa using h2n
      have hnotin := (List.nodup_cons.mp hcons).1
      apply hnotin
      have hba : Commit.id b = Commit.id a := by
        rw [← hc₁, ← hc₂]
        exact hid
      rw [← hba]
      exact List.mem_map.mpr ⟨b, by simp, rfl⟩

/-- Transporting the "properly newer snapshot" relation down a suffix. -/
theorem suffix_lift {α : Type} (lp lc l : List α) (h1 : lp <:+ lc) (h2 : lc ≠ l)
    (h3 : lc <:+ l) : lp ≠ l ∧ lp <:+ l := by
  refine ⟨?_, h1.trans h3⟩
  intro he
  subst he
  exact h2 (List.Sublist.antisymm h3.sublist h1.sublist)

/-- Main invariant of a run of poll ticks over an append-only log with unique
identifiers.  `lp` is the snapshot that anchored the current stored
identifier `st` (the empty snapshot at process start): provided every tick's
fetch succeeds, snapshots only grow (each is a suffix of the next and of the
full log `M`), and `lp`'s head — if any — carries `st`, then the run's send
invocations carry pairwise distinct identifiers, and each sent identifier is
the head identifier of a snapshot strictly newer than `lp`. -/
theorem runPoll_aux (M : List Commit) (hM : (M.map Commit.id).Nodup) :
    ∀ (ticks : List TickEnv) (lp : List Commit) (st : Jid),
      (∀ e ∈ ticks, ∃ d, e.fetchResult = FetchRes.ok d ∧ d ≠ ApiData.nullData) →
      List.Chain' (fun a b => a <:+ b) (lp :: ticks.map commitsOf) →
      (∀ l ∈ lp :: ticks.map commitsOf, l <:+ M) →
      (∀ c, lp.head? = some c → c.id = st) →
      ((runPoll st ticks).2.map Prod.fst).Nodup ∧
        ∀ x ∈ (runPoll st ticks).2.map Prod.fst,
          ∃ l ∈ ticks.map commitsOf, ∃ c, l.head? = some c ∧ c.id = x ∧ lp ≠ l ∧ lp <:+ l := by
  intro ticks
  induction ticks with
  | nil =>
    intro lp st _ _ _ _
    simp [runPoll]
  | cons e ts ih =>
    intro lp st hok hchain hsub hanchor
    obtain ⟨d, hf, hd⟩ := hok e (List.mem_cons_self e ts)
    have hok' : ∀ e2 ∈ ts, ∃ d2, e2.fetchResult = FetchRes.ok d2 ∧ d2 ≠ ApiData.nullData :=
      fun e2 he2 => hok e2 (List.mem_cons_of_mem e he2)
    have hcom : commitsOf e = extractCommits d := by simp [commitsOf, hf]
    have hchain1 : lp <:+ commitsOf e :=
      (List.chain'_cons'.mp hchain).1 (commitsOf e) rfl
    have hchain2 : List.Chain' (fun a b => a <:+ b) (commitsOf e :: ts.map commitsOf) :=
      (List.chain'_cons'.mp hchain).2
    have hsub1 : ∀ l ∈ commitsOf e :: ts.map commitsOf, l <:+ M :=
      fun l hl => hsub l (List.mem_cons_of_mem lp hl)
    have hpoll : pollOnce e st = pollStep e.chanRes (extractCommits d) st :=
      pollOnce_eq_step e st d hf hd
    cases hL : extractCommits d with
    | nil =>
      have hce : commitsOf e = [] := by rw [hcom, hL]
      have hpse : pollOnce e st = (st, []) := by rw [hpoll, hL]; rfl
      have hlp : lp = [] := by
        rw [hce] at hchain1
        exact List.suffix_nil.mp hchain1
      have hres := ih (commitsOf e) st hok' hchain2 hsub1
        (by intro c hc; rw [hce] at hc; simp at hc)
      rw [runPoll_cons, hpse]
      simp only [List.nil_append]
      refine ⟨hres.1, ?_⟩
      intro x hx
      obtain ⟨l, hl, c, hh, hid2, hne, hsuf⟩ := hres.2 x hx
      refine ⟨l, List.mem_cons_of_mem _ hl, c, hh, hid2, ?_, ?_⟩
      · rw [hlp, ← hce]
        exact hne
      · rw [hlp]
        exact List.nil_suffix
    | cons latest t =>
      have hhead : (commitsOf e).head? = some latest := by rw [hcom, hL]; rfl
      by_cases hst : latest.id = st
      · have hpse : pollOnce e st = (st, []) := by
          rw [hpoll, hL]
          exact pollStep_stale e.chanRes st latest t hst
        have hres := ih (commitsOf e) st hok' hchain2 hsub1
          (by
            intro c hc
            rw [hhead] at hc
            have : latest = c := by simpa using hc
            rw [← this]
            exact hst)
        rw [runPoll_cons, hpse]
        simp only [List.nil_append]
        refine ⟨hres.1, ?_⟩
        intro x hx
        obtain ⟨l, hl, c, hh, hid2, hne, hsuf⟩ := hres.2 x hx
        obtain ⟨hne', hsuf'⟩ := suffix_lift lp (commitsOf e) l hchain1 hne hsuf
        exact ⟨l, List.mem_cons_of_mem _ hl, c, hh, hid2, hne', hsuf'⟩
      · have hfst : (pollOnce e st).1 = latest.id := by
          rw [hpoll, hL]
          exact pollStep_fresh_fst e.chanRes st latest t hst
        have hids : (pollOnce e st).2.map Prod.fst = [] ∨
            (pollOnce e st).2.map Prod.fst = [latest.id] := by
          rw [hpoll, hL]
          exact pollStep_fresh_ids e.chanRes st latest t hst
        have hres := ih (commitsOf e) latest.id hok' hchain2 hsub1
          (by
            intro c hc
            rw [hhead] at hc
            have : latest = c := by simpa using hc
            rw [← this])
        have hlpne : lp ≠ commitsOf e := by
          intro heq
          apply hst
          apply hanchor latest
          rw [heq]
          exact hhead
        have hnotin : latest.id ∉ (runPoll latest.id ts).2.map Prod.fst := by
          intro hmem
          obtain ⟨l, hl, c, hh, hid2, hne, hsuf⟩ := hres.2 latest.id hmem
          have hle : l <:+ M := hsub1 l (List.mem_cons_of_mem _ hl)
          have := head_id_suffix_eq M (commitsOf e) l latest c hM hsuf hle
            hhead hh hid2.symm
          exact hne this
        have hsupp : ∀ x ∈ (runPoll latest.id ts).2.map Prod.fst,
            ∃ l ∈ (commitsOf e :: ts.map commitsOf), ∃ c,
              l.head? = some c ∧ c.id = x ∧ lp ≠ l ∧ lp <:+ l := by
          intro x hx
          obtain ⟨l, hl, c, hh, hid2, hne, hsuf⟩ := hres.2 x hx
          obtain ⟨hne', hsuf'⟩ := suffix_lift lp (commitsOf e) l hchain1 hne hsuf
          exact ⟨l, List.mem_cons_of_mem _ hl, c, hh, hid2, hne', hsuf'⟩
        rw [runPoll_cons]
        simp only [List.map_append, hfst]
        rcases hids with hids | hids
        · rw [hids]
          simp only [List.nil_append]
          exact ⟨hres.1, hsupp⟩
        · rw [hids]
          constructor
          · exact List.nodup_cons.mpr ⟨hnotin, hres.1⟩
          · intro x hx
            rcases List.mem_cons.mp hx with hx | hx
            · subst hx
              exact ⟨commitsOf e, List.mem_cons_self _ _, latest, hhead, rfl,
                hlpne, hchain1⟩
            · exact hsupp x hx

/-! ## Claim theorems -/

/-- C1: for every poll tick whose fetched commit list is non-empty and whose
first element's identifier differs strictly from the stored last-seen
identifier (the initial `null` state always differs from a string id), and
whose channel lookup yields a channel, `checkForNewCommits` ends with the
stored identifier set to the head's identifier and exactly one `channel.send`
invocation carrying the formatted message. -/
theorem poll_new_head_updates_then_sends_once
    (env : TickEnv) (st : Jid) (d : ApiData) (latest : Commit) (rest : List Commit) (b : Bool)
    (hf : env.fetchResult = FetchRes.ok d) (hd : d ≠ ApiData.nullData)
    (hl : extractCommits d = latest :: rest)
    (hnew : latest.id ≠ st) (hch : env.chanRes = ChanResult.ok b) :
    pollOnce env st = (latest.id, [(latest.id, formatCommit latest)]) :=
  pollOnce_fresh_send env st d latest rest b hf hd hl hnew hch

/-- Witness for C1: the spec's scenario — last-seen `null`, upstream
`[{id:"c2", author:"A", message:"fix"}, {id:"c1"}]` — yields one send
referencing `c2` and stored state `"c2"`. -/
theorem poll_new_head_updates_then_sends_once_witness :
    pollOnce tickA Jid.null = (Jid.str "c2", [(Jid.str "c2", formatCommit cFix)]) :=
  poll_new_head_updates_then_sends_once tickA Jid.null (ApiData.arr [cFix, cOld])
    cFix [cOld] true rfl (by decide) rfl (by decide) rfl

/-- C2: a poll tick whose head identifier equals the stored identifier sends
nothing and leaves the state unchanged; consequently running the same tick a
second time against an unchanged upstream response sends nothing and keeps
the state, so two consecutive identical ticks yield exactly one send total. -/
theorem poll_same_head_noop_and_second_tick_silent
    (env : TickEnv) (st : Jid) (d : ApiData) (latest : Commit) (rest : List Commit)
    (hf : env.fetchResult = FetchRes.ok d) (hd : d ≠ ApiData.nullData)
    (hl : extractCommits d = latest :: rest) :
    (latest.id = st → pollOnce env st = (st, [])) ∧
      (∀ b, env.chanRes = ChanResult.ok b → latest.id ≠ st →
        (pollOnce env st).2.length = 1 ∧
          pollOnce env (pollOnce env st).1 = ((pollOnce env st).1, [])) := by
  constructor
  · intro hst
    exact pollOnce_stale_noop env st d latest rest hf hd hl hst
  · intro b hch hnew
    have h1 := pollOnce_fresh_send env st d latest rest b hf hd hl hnew hch
    refine ⟨by rw [h1]; rfl, ?_⟩
    rw [h1]
    exact pollOnce_stale_noop env latest.id d latest rest hf hd hl rfl

/-- Witness for C2: with last-seen already `"c2"` the tick is a no-op, and
the first poll from `null` followed by a second identical poll yields one
send then none. -/
theorem poll_same_head_noop_and_second_tick_silent_witness :
    pollOnce tickA (Jid.str "c2") = (Jid.str "c2", []) ∧
      (pollOnce tickA Jid.null).2.length = 1 ∧
      pollOnce tickA (pollOnce tickA Jid.null).1 = ((pollOnce tickA Jid.null).1, []) := by
  have h1 := poll_same_head_noop_and_second_tick_silent tickA (Jid.str "c2")
    (ApiData.arr [cFix, cOld]) cFix [cOld] rfl (by decide) rfl
  have h2 := poll_same_head_noop_and_second_tick_silent tickA Jid.null
    (ApiData.arr [cFix, cOld]) cFix [cOld] rfl (by decide) rfl
  exact ⟨h1.1 rfl, h2.2 true rfl (by decide)⟩

/-- C3: a tick whose fetch answers a non-success HTTP status returns early:
no exception escapes, the stored identifier is untouched, and no send
happens. -/
theorem poll_http_error_recovered_noop (env : TickEnv) (st : Jid) (s : Nat)
    (hf : env.fetchResult = FetchRes.httpError s) :
    pollOnce env st = (st, []) := by
  simp [pollOnce, hf]

/-- Witness for C3: an HTTP 500 tick leaves last-seen `"c2"` unchanged and
sends nothing. -/
theorem poll_http_error_recovered_noop_witness :
    pollOnce tick500 (Jid.str "c2") = (Jid.str "c2", []) :=
  poll_http_error_recovered_noop tick500 (Jid.str "c2") 500 rfl

/-- C4 counterexample: the body `{ commits: "x" }` lies in the original
claim's scope — its parsed JSON value is neither a non-empty array nor an
object whose `commits` field is a non-empty array (the field is a string) —
yet the tick is not a no-op: `data.commits || []` keeps the truthy string,
`commits.length` is 1, `commits[0]` is its first character whose `id` is
`undefined`, `undefined !== null` holds, so the tick stores
`lastCommitId = undefined` and performs one send (with every interpolated
field rendering as "undefined"). -/
theorem poll_counterexample_truthy_commits_string_notifies :
    extractCommits (ApiData.objCommitsStr "x") = [strElemCommit] ∧
      pollOnce tickStrCommits Jid.null =
        (Jid.undef, [(Jid.undef, formatCommit strElemCommit)]) ∧
      Jid.undef ≠ Jid.null := by
  refine ⟨rfl, ?_, by decide⟩
  rfl

/-- C4 as amended: a successful fetch whose parsed body yields no commits
under the code's extraction — an empty array, an object whose `commits`
field is falsy (absent, `null`, or the empty string) or an empty array or a
truthy value without positive length or indexable elements, or the JSON
value `null` (where the property access raises and is caught) — sends
nothing and leaves the stored identifier unchanged.  Bodies whose `commits`
field is a truthy non-array with positive length (e.g. a non-empty string)
are excluded: the code notifies on those. -/
theorem poll_no_commits_noop (env : TickEnv) (st : Jid) (d : ApiData)
    (hf : env.fetchResult = FetchRes.ok d) (he : extractCommits d = []) :
    pollOnce env st = (st, []) := by
  cases d with
  | nullData => simp [pollOnce, hf]
  | arr cs =>
    rw [pollOnce_eq_step env st _ hf (by simp), he]
    rfl
  | objCommits cs =>
    rw [pollOnce_eq_step env st _ hf (by simp), he]
    rfl
  | objCommitsStr s =>
    rw [pollOnce_eq_step env st _ hf (by simp), he]
    rfl
  | other =>
    rw [pollOnce_eq_step env st _ hf (by simp), he]
    rfl

/-- Witness for C4: the spec's scenario — upstream returns `{ commits: [] }`
— yields zero sends and unchanged state. -/
theorem poll_no_commits_noop_witness :
    pollOnce tickEmptyObj (Jid.str "c2") = (Jid.str "c2", []) :=
  poll_no_commits_noop tickEmptyObj (Jid.str "c2") (ApiData.objCommits []) rfl rfl

/-- C5: formatting a commit record that lacks the optional `branch` and
`workspace` fields substitutes the documented placeholders — the produced
text ends in "Branch: main" and "Workspace: N/A" — and, being a total
function, cannot raise. -/
theorem format_missing_branch_workspace_placeholders (c : Commit)
    (hb : c.branch = none) (hw : c.workspace = none) :
    ∃ p : List Char,
      (formatCommit c).data = p ++ "\nBranch: main\nWorkspace: N/A".data := by
  have hlit : "\nBranch: main\nWorkspace: N/A".data =
      "\nBranch: ".data ++ ("main".data ++ ("\nWorkspace: ".data ++ "N/A".data)) := by
    decide
  refine ⟨("🆕 New commit in Diversion:\nAuthor: **"
      ++ jsInterp (jsOrV c.author_name c.author)
      ++ "**\nMessage: " ++ jsInterp (jsOrV c.commit_message c.message)).data, ?_⟩
  simp [formatCommit, hb, hw, hlit, String.data_append, jsOrV, jsTruthy, jsInterp]

/-- Witness for C5: a record with only id/author/message formats with both
placeholders present. -/
theorem format_missing_branch_workspace_placeholders_witness :
    cFix.branch = none ∧ cFix.workspace = none ∧
      ∃ p : List Char,
        (formatCommit cFix).data = p ++ "\nBranch: main\nWorkspace: N/A".data :=
  ⟨rfl, rfl, format_missing_branch_workspace_placeholders cFix rfl rfl⟩

/-- C6: over any run of poll ticks within one process lifetime in which every
fetch succeeds and the upstream is an append-only log with globally unique
commit identifiers (each observed snapshot is a suffix of the next and of the
full log `M`, whose identifiers are pairwise distinct), the identifiers of
the run's send invocations are pairwise distinct: at most one notification is
sent per distinct identifier. -/
theorem run_at_most_one_send_per_id (ticks : List TickEnv) (M : List Commit)
    (hM : (M.map Commit.id).Nodup)
    (hok : ∀ e ∈ ticks, ∃ d, e.fetchResult = FetchRes.ok d ∧ d ≠ ApiData.nullData)
    (hchain : List.Chain' (fun a b => a <:+ b) (ticks.map commitsOf))
    (hsub : ∀ e ∈ ticks, commitsOf e <:+ M) :
    ((runPoll Jid.null ticks).2.map Prod.fst).Nodup := by
  have h := runPoll_aux M hM ticks [] Jid.null hok
    (List.chain'_cons'.mpr ⟨fun y _ => List.nil_suffix, hchain⟩)
    (by
      intro l hl
      rcases List.mem_cons.mp hl with hl | hl
      · rw [hl]
        exact List.nil_suffix
      · obtain ⟨e, he, rfl⟩ := List.mem_map.mp hl
        exact hsub e he)
    (by intro c hc; simp at hc)
  exact h.1

/-- Witness for C6: a two-tick run over the growing log
`[c2,c1]` then `[c3,c2,c1]` sends for `c2` and then `c3` — two sends,
pairwise distinct identifiers. -/
theorem run_at_most_one_send_per_id_witness :
    (runPoll Jid.null [tickA, tickGrown]).2.map Prod.fst = [Jid.str "c2", Jid.str "c3"] ∧
      ((runPoll Jid.null [tickA, tickGrown]).2.map Prod.fst).Nodup := by
  refine ⟨by decide, ?_⟩
  apply run_at_most_one_send_per_id [tickA, tickGrown] [cNew, cFix, cOld]
  · decide
  · intro e he
    rcases List.mem_cons.mp he with rfl | he
    · exact ⟨ApiData.arr [cFix, cOld], rfl, by decide⟩
    · rcases List.mem_cons.mp he with rfl | he
      · exact ⟨ApiData.arr [cNew, cFix, cOld], rfl, by decide⟩
      · simp at he
  · exact List.chain'_cons.mpr ⟨by decide, List.chain'_singleton _⟩
  · intro e he
    rcases List.mem_cons.mp he with rfl | he
    · decide
    · rcases List.mem_cons.mp he with rfl | he
      · decide
      · simp at he

/-- C7 counterexample: the claim says absence of the upstream base URL or the
workspace name makes startup exit non-zero, but `requiredEnvVars` contains
neither `DIVERSION_BASE_URL` nor `DIVERSION_WORKSPACE`: with the seven
code-required variables set and both of these absent, startup does not exit
and the base URL silently falls back to its default. -/
theorem startup_counterexample_base_url_not_required :
    envNoBase.DIVERSION_BASE_URL = none ∧ envNoBase.DIVERSION_WORKSPACE = none ∧
      startupExitCode envNoBase = none ∧
      effectiveBaseUrl envNoBase = "https://api.diversion.dev" := by
  decide

/-- C7 as amended: the required set is the code's `requiredEnvVars` —
bot credential, channel id, bearer credential, repository name, organization
name, client id, guild id; if any of these is absent (or empty, which
JavaScript treats as falsy), startup exits with code 1 before doing any
work.  Base URL and workspace are not required and default instead. -/
theorem startup_missing_required_exits_one (e : ProcEnv) (v : String)
    (hv : v ∈ requiredEnvVars) (hmiss : jsTruthy (lookupEnv e v) = false) :
    startupExitCode e = some 1 := by
  have hany : requiredEnvVars.any (fun w => !(jsTruthy (lookupEnv e w))) = true :=
    List.any_eq_true.mpr ⟨v, hv, by rw [hmiss]; rfl⟩
  simp [startupExitCode, hany]

/-- Witness for the amended C7: an environment missing `DISCORD_TOKEN` exits
with code 1. -/
theorem startup_missing_required_exits_one_witness :
    ("DISCORD_TOKEN" ∈ requiredEnvVars) ∧ startupExitCode envNoTok = some 1 :=
  ⟨by decide,
    startup_missing_required_exits_one envNoTok "DISCORD_TOKEN" (by decide) (by decide)⟩

/-- C8: every `/status` invocation first attempts the deferred
acknowledgement and then delivers exactly one final content — a formatted
success message, the fixed "no commits found" message, or the fixed failure
message — as a follow-up edit when the defer succeeded (and as a direct
reply otherwise); the handler is total, so no fetch, parse, or delivery
error escapes it. -/
theorem status_always_replies_defer_then_edit (env : StatusEnv) (st : Jid) :
    ∃ msg, (handleStatus env st).2 =
        [Action.deferCall,
          if env.deferOk then Action.editReply msg else Action.reply msg] ∧
      ((∃ c, msg = statusMessage env.timeText c) ∨ msg = noCommitsMsg ∨ msg = statusErrorMsg) := by
  cases hres : getLatestCommit env.token env.fetch with
  | error s =>
    exact ⟨statusErrorMsg, by simp [handleStatus, hres], Or.inr (Or.inr rfl)⟩
  | ok o =>
    cases o with
    | none =>
      exact ⟨noCommitsMsg, by simp [handleStatus, hres], Or.inr (Or.inl rfl)⟩
    | some c =>
      exact ⟨statusMessage env.timeText c, by simp [handleStatus, hres], Or.inl ⟨c, rfl⟩⟩

/-- C9: the `/status` path only reads the stored last-seen identifier — for
every environment and every outcome the identifier after the handler (and
the `getLatestCommit` call inside it) equals its value before. -/
theorem status_preserves_last_seen (env : StatusEnv) (st : Jid) :
    (handleStatus env st).1 = st := rfl

/-- C10: when a tick observes a fresh head identifier, the stored identifier
is assigned before the channel lookup and send are attempted; hence if the
lookup yields no channel or throws, the state still holds the new value and
no send happened, and — under the append-only unique-identifier upstream —
no later tick of the run ever sends for that identifier: state update and
notification are not atomic, and a failed send is dropped for good. -/
theorem state_update_precedes_dispatch
    (env : TickEnv) (st : Jid) (d : ApiData) (latest : Commit) (rest : List Commit)
    (hf : env.fetchResult = FetchRes.ok d) (hd : d ≠ ApiData.nullData)
    (hl : extractCommits d = latest :: rest) (hnew : latest.id ≠ st) :
    (pollOnce env st).1 = latest.id ∧
      (env.chanRes = ChanResult.missing ∨ env.chanRes = ChanResult.throws →
        (pollOnce env st).2 = []) ∧
      ∀ (ticks : List TickEnv) (M : List Commit),
        (M.map Commit.id).Nodup →
        (∀ e ∈ ticks, ∃ d2, e.fetchResult = FetchRes.ok d2 ∧ d2 ≠ ApiData.nullData) →
        List.Chain' (fun a b => a <:+ b) ((latest :: rest) :: ticks.map commitsOf) →
        (∀ e ∈ ticks, commitsOf e <:+ M) → (latest :: rest) <:+ M →
        latest.id ∉ (runPoll (pollOnce env st).1 ticks).2.map Prod.fst := by
  refine ⟨pollOnce_fresh_fst env st d latest rest hf hd hl hnew, ?_, ?_⟩
  · intro hch
    rcases hch with hch | hch
    · rw [pollOnce_eq_step env st d hf hd, hl, hch]
      simp [pollStep, hnew]
    · rw [pollOnce_eq_step env st d hf hd, hl, hch]
      simp [pollStep, hnew]
  · intro ticks M hM hok hchain hsub hsubM
    rw [pollOnce_fresh_fst env st d latest rest hf hd hl hnew]
    have h := runPoll_aux M hM ticks (latest :: rest) latest.id hok hchain
      (by
        intro l hl2
        rcases List.mem_cons.mp hl2 with rfl | hl2
        · exact hsubM
        · obtain ⟨e, he, rfl⟩ := List.mem_map.mp hl2
          exact hsub e he)
      (by
        intro c hc
        have : latest = c := by simpa using hc
        rw [← this])
    intro hmem
    obtain ⟨l, hl2, c, hh, hid2, hne, hsuf⟩ := h.2 latest.id hmem
    have hle : l <:+ M := by
      obtain ⟨e, he, rfl⟩ := List.mem_map.mp hl2
      exact hsub e he
    exact hne (head_id_suffix_eq M (latest :: rest) l latest c hM hsuf hle rfl hh hid2.symm)

/-- Witness for C10: a tick with head `c2` but no channel ends with state
`"c2"` and zero sends, and a following healthy tick over the grown log
`[c3,c2,c1]` never sends for `c2`. -/
theorem state_update_precedes_dispatch_witness :
    (pollOnce tickNoChan Jid.null).1 = Jid.str "c2" ∧
      (pollOnce tickNoChan Jid.null).2 = [] ∧
      Jid.str "c2" ∉ (runPoll (pollOnce tickNoChan Jid.null).1 [tickGrown]).2.map Prod.fst := by
  have h := state_update_precedes_dispatch tickNoChan Jid.null (ApiData.arr [cFix, cOld])
    cFix [cOld] rfl (by decide) rfl (by decide)
  refine ⟨h.1, h.2.1 (Or.inl rfl), ?_⟩
  apply h.2.2 [tickGrown] [cNew, cFix, cOld]
  · decide
  · intro e he
    rcases List.mem_cons.mp he with rfl | he
    · exact ⟨ApiData.arr [cNew, cFix, cOld], rfl, by decide⟩
    · simp at he
  · exact List.chain'_cons.mpr ⟨by decide, List.chain'_singleton _⟩
  · intro e he
    rcases List.mem_cons.mp he with rfl | he
    · decide
    · simp at he
  · decide

end DivBot
